import Mathlib

/-!
Shallow embedding of the reactive property/style/animation core of the rui
UI framework: the per-view property store (`view.go`), the animation engine
and transition override logic (`animation.go`), the transition/animation
event listener machinery (`src/unnamed/part_000`), and the drop-down list
property store (`src/unnamed/part_001`).

Go maps are embedded as association lists (`lookupP` / `insertP` / `eraseP`);
Go `interface{}` values are embedded as closed inductive types covering the
shapes the source dispatches on; side effects (instructions sent to the
rendering surface, diagnostic logs, listener invocations) are embedded as an
output list carried in the state.
-/

namespace Rui

/-! ### Association-list operations standing in for Go maps -/

/-- Lookup of a key in an association list (Go map read `m[k]`). -/
def lookupP {κ α : Type} [DecidableEq κ] (k : κ) : List (κ × α) → Option α
  | [] => none
  | p :: rest => if p.1 = k then some p.2 else lookupP k rest

/-- Map write `m[k] = a`: replaces the first binding of the key, or appends a
new binding when the key is absent. -/
def insertP {κ α : Type} [DecidableEq κ] (k : κ) (a : α) : List (κ × α) → List (κ × α)
  | [] => [(k, a)]
  | p :: rest => if p.1 = k then (k, a) :: rest else p :: insertP k a rest

/-- Map delete `delete(m, k)`: removes every binding of the key. -/
def eraseP {κ α : Type} [DecidableEq κ] (k : κ) (l : List (κ × α)) : List (κ × α) :=
  l.filter (fun p => p.1 ≠ k)

theorem lookupP_insertP_self {κ α : Type} [DecidableEq κ] (k : κ) (a : α)
    (l : List (κ × α)) : lookupP k (insertP k a l) = some a := by
  induction l with
  | nil => simp [insertP, lookupP]
  | cons p rest ih =>
    by_cases h : p.1 = k
    · simp [insertP, h, lookupP]
    · simp [insertP, h, lookupP, ih]

theorem eraseP_cons {κ α : Type} [DecidableEq κ] (k : κ) (p : κ × α) (l : List (κ × α)) :
    eraseP k (p :: l) = if p.1 = k then eraseP k l else p :: eraseP k l := by
  by_cases h : p.1 = k <;> simp [eraseP, List.filter_cons, h]

theorem eraseP_insertP_self {κ α : Type} [DecidableEq κ] (k : κ) (a : α)
    (l : List (κ × α)) : eraseP k (insertP k a l) = eraseP k l := by
  induction l with
  | nil => simp [insertP, eraseP_cons, eraseP]
  | cons p rest ih =>
    by_cases h : p.1 = k
    · rw [insertP, if_pos h, eraseP_cons, eraseP_cons]
      simp [h, ih]
    · rw [insertP, if_neg h, eraseP_cons, eraseP_cons, if_neg h, if_neg h, ih]

theorem lookupP_eraseP_ne {κ α : Type} [DecidableEq κ] (k k' : κ) (l : List (κ × α))
    (h : k ≠ k') : lookupP k (eraseP k' l) = lookupP k l := by
  induction l with
  | nil => simp [eraseP, lookupP]
  | cons p rest ih =>
    rw [eraseP_cons]
    by_cases hp : p.1 = k'
    · have hpk : ¬ p.1 = k := by rw [hp]; exact fun hh => h hh.symm
      rw [if_pos hp, ih, lookupP, if_neg hpk]
    · rw [if_neg hp, lookupP, lookupP]
      by_cases hk : p.1 = k
      · rw [if_pos hk, if_pos hk]
      · rw [if_neg hk, if_neg hk, ih]

/-! ### String parsing helpers (Go `strconv`, `strings`) -/

/-- ASCII decimal digit test. -/
def isDigitChar (c : Char) : Bool := '0' ≤ c && c ≤ '9'

/-- Value of a list of decimal digits. -/
def digitsVal (cs : List Char) : Nat :=
  cs.foldl (fun a c => a * 10 + (c.toNat - 48)) 0

/-- Go `strings.ToLower` restricted to the ASCII range the source's tags
use (embedded structurally so that concrete evaluation reduces). -/
def toLowerS (s : String) : String := String.mk (s.data.map Char.toLower)

/-- Go `strings.Trim` on a character list. -/
def trimCharsL (bad : List Char) (cs : List Char) : List Char :=
  let cs := cs.dropWhile (fun c => bad.contains c)
  (cs.reverse.dropWhile (fun c => bad.contains c)).reverse

/-- Go `strings.Trim(s, cutset)`: strips the given characters from both ends. -/
def trimChars (bad : List Char) (s : String) : String :=
  String.mk (trimCharsL bad s.data)

/-- Go `strings.Split(s, ",")` on a character list. -/
def splitCommas : List Char → List (List Char)
  | [] => [[]]
  | c :: rest =>
    if c = ',' then [] :: splitCommas rest
    else
      match splitCommas rest with
      | [] => [[c]]
      | l :: ls => (c :: l) :: ls

/-- Go `strconv.Atoi`: an optional sign followed by one or more decimal
digits and nothing else. (The 64-bit range check is not modelled; no claim
exercises it.) -/
def atoi? (s : String) : Option Int :=
  match s.data with
  | [] => none
  | cs =>
    let (sign, body) : Int × List Char :=
      match cs with
      | '+' :: r => (1, r)
      | '-' :: r => (-1, r)
      | _ => (1, cs)
    if body ≠ [] ∧ body.all isDigitChar then some (sign * (digitsVal body : Int))
    else none

/-- Go `strconv.ParseFloat` restricted to plain decimal forms
`[+-]digits[.digits][(e|E)[+-]digits]` (hexadecimal floats and the
inf/NaN keywords are not modelled; no claim exercises them). The numeric
value is returned as a rational. -/
def parseFloat? (s : String) : Option Rat :=
  let cs := s.data
  let (sign, cs) : Int × List Char :=
    match cs with
    | '+' :: r => (1, r)
    | '-' :: r => (-1, r)
    | _ => (1, cs)
  let intPart := cs.takeWhile isDigitChar
  let cs := cs.dropWhile isDigitChar
  let (fracPart, cs) : List Char × List Char :=
    match cs with
    | '.' :: r => (r.takeWhile isDigitChar, r.dropWhile isDigitChar)
    | _ => ([], cs)
  if intPart = [] ∧ fracPart = [] then none
  else
    let mant : Int := sign * (digitsVal (intPart ++ fracPart) : Int)
    let base : Rat := (mant : Rat) / ((10 : Rat) ^ fracPart.length)
    match cs with
    | [] => some base
    | e :: r =>
      if e = 'e' ∨ e = 'E' then
        let (esign, r) : Bool × List Char :=
          match r with
          | '+' :: r2 => (true, r2)
          | '-' :: r2 => (false, r2)
          | _ => (true, r)
        let eds := r.takeWhile isDigitChar
        let rest := r.dropWhile isDigitChar
        if eds = [] ∨ rest ≠ [] then none
        else if esign then some (base * (10 : Rat) ^ digitsVal eds)
        else some (base / (10 : Rat) ^ digitsVal eds)
      else none

/-! ### Timing-function validation (`animation.go`, `validateTimingFunction`) -/

/-- Splits a character list at the first occurrence of `'('`
(Go `strings.IndexRune(s, '(')`): the part before and the part after. -/
def splitFirstParen : List Char → Option (List Char × List Char)
  | [] => none
  | c :: cs =>
    if c = '(' then some ([], cs)
    else
      match splitFirstParen cs with
      | some (b, a) => some (c :: b, a)
      | none => none

/-- `validateTimingFunction` from `animation.go`: the five timing keywords and
the empty string are accepted outright; otherwise the string must end in
`')'`, have a `'('` at a positive index, and name either `steps` with an
integer argument or `cubic-bezier` with exactly four float arguments. -/
def validateTimingFunction (t : String) : Bool :=
  if t = "" ∨ t = "ease" ∨ t = "ease-in" ∨ t = "ease-out" ∨ t = "ease-in-out" ∨ t = "linear" then
    true
  else
    let cs := t.data
    match cs.getLast? with
    | some c =>
      if c = ')' then
        match splitFirstParen cs.dropLast with
        | some (name, args) =>
          if name = [] then false
          else if String.mk name = "steps" then
            (atoi? (trimChars [' ', '\t', '\n'] (String.mk args))).isSome
          else if String.mk name = "cubic-bezier" then
            let params := splitCommas args
            params.length = 4 &&
              params.all (fun p => (parseFloat? (String.mk (trimCharsL [' ', '\t', '\n'] p))).isSome)
          else false
        | none => false
      else false
    | none => false

/-! ### Animation data (`animation.go`: `AnimatedProperty`, `animationData`) -/

/-- `AnimatedProperty`: the change script of one property. `interface{}`
values for `From`/`To`/keyframes are embedded as strings (the shapes the
claims exercise); the `KeyFrames` map is an association list and, like the
Go map, may be absent (`nil`). -/
structure AnimatedProp where
  tag : String
  fromVal : Option String
  toVal : Option String
  keyFrames : Option (List (Nat × String))
  deriving Repr, DecidableEq

/-- Values stored in an animation's property map. -/
inductive APValue
  | apStr (s : String)
  | apNum (q : Rat)
  | apInt (n : Int)
  | apEnum (n : Int)
  | apProps (l : List AnimatedProp)
  deriving Repr, DecidableEq

/-- Values passed to `animationData.Set` (the `interface{}` shapes its
switch dispatches on; the `DataNode` textual form is not embedded — no claim
exercises it). -/
inductive AValue
  | aStr (s : String)
  | aNum (q : Rat)
  | aInt (n : Int)
  | aProp (p : AnimatedProp)
  | aProps (l : List AnimatedProp)
  | aOther (n : Nat)
  deriving Repr, DecidableEq

/-- `animationData`: property map, the lazily assigned keyframe name, and the
diagnostic log (`ErrorLog` calls). -/
structure AnimState where
  properties : List (String × APValue)
  keyFramesName : String
  log : List String
  deriving Repr, DecidableEq

/-- An animation with no properties set (`animationData.init`). -/
def emptyAnim : AnimState := { properties := [], keyFramesName := "", log := [] }

/-- `animationData.normalizeTag`: lowercase, mapping `"direction"` to
`"animation-direction"`. -/
def animNormalizeTag (tag : String) : String :=
  let t := toLowerS tag
  if t = "direction" then "animation-direction" else t

/-- The `From` half of the keyframe promotion in `animationData.Set`
(`PropertyTag` case): an absent `From` is filled from the keyframe entry at
percent 0, which is then removed from the keyframe map. -/
def promoteFrom (p : AnimatedProp) : AnimatedProp :=
  if p.fromVal.isNone then
    match p.keyFrames with
    | some kfs =>
      match lookupP 0 kfs with
      | some v => { p with fromVal := some v, keyFrames := some (eraseP 0 kfs) }
      | none => p
    | none => p
  else p

/-- The `To` half of the keyframe promotion: percent 100 promoted to `To`. -/
def promoteTo (p : AnimatedProp) : AnimatedProp :=
  if p.toVal.isNone then
    match p.keyFrames with
    | some kfs =>
      match lookupP 100 kfs with
      | some v => { p with toVal := some v, keyFrames := some (eraseP 100 kfs) }
      | none => p
    | none => p
  else p

/-- Full normalization of one `AnimatedProperty` as performed by
`animationData.Set`. -/
def normalizeAnimatedProp (p : AnimatedProp) : AnimatedProp :=
  promoteTo (promoteFrom p)

/-- The loop of the `[]AnimatedProperty` case of `animationData.Set`:
normalizes each entry, drops (and logs) entries still lacking `From` or
`To`, and keeps the valid ones in order. -/
def collectProps : List AnimatedProp → List AnimatedProp × List String
  | [] => ([], [])
  | p :: rest =>
    let p := normalizeAnimatedProp p
    let (ps, ls) := collectProps rest
    if p.fromVal.isNone then (ps, "AnimatedProperty.From is nil" :: ls)
    else if p.toVal.isNone then (ps, "AnimatedProperty.To is nil" :: ls)
    else (p :: ps, ls)

/-- The valid normalization of one entry, when it has one (the entries the
`collectProps` loop keeps). -/
def validProp? (p : AnimatedProp) : Option AnimatedProp :=
  let p := normalizeAnimatedProp p
  if p.fromVal.isNone then none
  else if p.toVal.isNone then none
  else some p

/-- Modelled from the spec: `setFloatProperty` (defined on `propertyList`,
outside the provided sources) coerces a float-valued tag from numeric
literals and numeric strings, rejecting values outside the tag's range
(§4.1); on success the coerced number is stored. -/
def animSetFloat (a : AnimState) (tag : String) (value : AValue)
    (lo hi : Option Rat) : AnimState × Bool :=
  let store (q : Rat) : AnimState × Bool :=
    if (match lo with | some l => decide (l ≤ q) | none => true) &&
       (match hi with | some h => decide (q ≤ h) | none => true) then
      ({ a with properties := insertP tag (.apNum q) a.properties }, true)
    else ({ a with log := a.log ++ ["notCompatibleType: " ++ tag] }, false)
  match value with
  | .aNum q => store q
  | .aInt n => store (n : Rat)
  | .aStr s =>
    match parseFloat? s with
    | some q => store q
    | none => ({ a with log := a.log ++ ["notCompatibleType: " ++ tag] }, false)
  | _ => ({ a with log := a.log ++ ["notCompatibleType: " ++ tag] }, false)

/-- Modelled from the spec: `setIntProperty` (outside the provided sources)
coerces an integer-valued tag from integer literals and integer strings
(§4.1). -/
def animSetInt (a : AnimState) (tag : String) (value : AValue) : AnimState × Bool :=
  match value with
  | .aInt n => ({ a with properties := insertP tag (.apInt n) a.properties }, true)
  | .aStr s =>
    match atoi? s with
    | some n => ({ a with properties := insertP tag (.apInt n) a.properties }, true)
    | none => ({ a with log := a.log ++ ["notCompatibleType: " ++ tag] }, false)
  | _ => ({ a with log := a.log ++ ["notCompatibleType: " ++ tag] }, false)

/-- The named animation-direction constants (`enumProperties` lives outside
the provided sources; the four values are fixed by the source's
`NormalAnimation` .. `AlternateReverseAnimation` constants). -/
def directionValues : List String := ["normal", "reverse", "alternate", "alternate-reverse"]

/-- Modelled from the spec: `setEnumProperty` (outside the provided sources)
accepts an enum tag's integer code or its textual constant name (§4.1). -/
def animSetEnum (a : AnimState) (tag : String) (value : AValue)
    (values : List String) : AnimState × Bool :=
  match value with
  | .aInt n =>
    if 0 ≤ n ∧ n < (values.length : Int) then
      ({ a with properties := insertP tag (.apEnum n) a.properties }, true)
    else ({ a with log := a.log ++ ["notCompatibleType: " ++ tag] }, false)
  | .aStr s =>
    match values.indexOf? s with
    | some i => ({ a with properties := insertP tag (.apEnum (i : Int)) a.properties }, true)
    | none => ({ a with log := a.log ++ ["notCompatibleType: " ++ tag] }, false)
  | _ => ({ a with log := a.log ++ ["notCompatibleType: " ++ tag] }, false)

/-- `animationData.Remove`. -/
def animRemove (a : AnimState) (tag : String) : AnimState :=
  { a with properties := eraseP (animNormalizeTag tag) a.properties }

/-- `animationData.Set`. A `nil` value (here `none`) removes the tag and
succeeds. The `"property"` cases perform the keyframe promotion and drop
invalid entries; `"duration"`, `"delay"`, `"iteration-count"` and
`"animation-direction"` go through the coercion helpers; `"timing-function"`
accepts any string; unsupported tags fail. -/
def animSet (a : AnimState) (tag : String) (value : Option AValue) : AnimState × Bool :=
  match value with
  | none => (animRemove a tag, true)
  | some value =>
    let tag := animNormalizeTag tag
    if tag = "id" then
      match value with
      | .aStr s =>
        let s := trimChars [' ', '\t', '\n', '\r'] s
        if s = "" then ({ a with properties := eraseP tag a.properties }, true)
        else ({ a with properties := insertP tag (.apStr s) a.properties }, true)
      | _ => ({ a with log := a.log ++ ["notCompatibleType: " ++ tag] }, false)
    else if tag = "property" then
      match value with
      | .aProp p =>
        let p := normalizeAnimatedProp p
        if p.fromVal.isNone then
          ({ a with log := a.log ++ ["AnimatedProperty.From is nil"] }, false)
        else if p.toVal.isNone then
          ({ a with log := a.log ++ ["AnimatedProperty.To is nil"] }, false)
        else
          ({ a with properties := insertP tag (.apProps [p]) a.properties }, true)
      | .aProps l =>
        let pl := collectProps l
        if pl.1.isEmpty then
          ({ a with log := a.log ++ pl.2 ++ ["[]AnimatedProperty is empty"] }, false)
        else
          ({ a with properties := insertP tag (.apProps pl.1) a.properties,
                    log := a.log ++ pl.2 }, true)
      | _ => ({ a with log := a.log ++ ["notCompatibleType: " ++ tag] }, false)
    else if tag = "duration" then
      animSetFloat a tag value (some 0) none
    else if tag = "delay" then
      animSetFloat a tag value none none
    else if tag = "timing-function" then
      match value with
      | .aStr s => ({ a with properties := insertP tag (.apStr s) a.properties }, true)
      | _ => ({ a with log := a.log ++ ["notCompatibleType: " ++ tag] }, false)
    else if tag = "iteration-count" then
      animSetInt a tag value
    else if tag = "animation-direction" then
      animSetEnum a "animation-direction" value directionValues
    else
      ({ a with log := a.log ++ ["property is not supported by Animation: " ++ tag] }, false)

/-! ### Session state and keyframe registration (`animation.go`, `registerAnimation`) -/

/-- The per-session state the animation engine touches: the monotone
keyframe-name counter and the accumulated keyframe CSS text. -/
structure SessionState where
  animationCounter : Nat
  animationCSSText : String
  deriving Repr, DecidableEq

/-- Decimal rendering padded to at least six digits (Go `fmt.Sprintf("%06d", n)`). -/
def natPad6 (n : Nat) : String :=
  let s := toString n
  if s.length < 6 then String.mk (List.replicate (6 - s.length) '0') ++ s else s

/-- Modelled in part: the keyframe CSS body that `registerAnimation` builds
(a `from` block of all `From` values, percentage blocks, a `to` block). The
block rendering itself goes through `cssStyleBuilder` and `NewViewStyle`,
which are outside the provided sources; the body text is modelled as a fold
over the property list and is otherwise opaque — no claim inspects it. -/
def keyframesBody (props : List AnimatedProp) : String :=
  props.foldl
    (fun acc p =>
      acc ++ " " ++ p.tag ++ ":" ++ (p.fromVal.getD "") ++ ".." ++ (p.toVal.getD ""))
    "@keyframes"

/-- `sessionData.registerAnimation`: increments the session counter, derives
the process-unique name `kfNNNNNN`, appends the keyframe CSS to the session,
and returns the name. -/
def registerAnimation (s : SessionState) (props : List AnimatedProp) :
    String × SessionState :=
  let c := s.animationCounter + 1
  let name := "kf" ++ natPad6 c
  (name,
   { animationCounter := c,
     animationCSSText := s.animationCSSText ++ keyframesBody props })

/-! ### Animation CSS serialization (`animation.go`) -/

/-- Modelled from the spec: `stringProperty` (outside the provided sources)
returns the stored string value of a tag, when the stored value is a string. -/
def stringPropertyA (a : AnimState) (tag : String) : Option String :=
  match lookupP tag a.properties with
  | some (.apStr s) => some s
  | _ => none

/-- Modelled from the spec: `Session.resolveConstants` (outside the provided
sources) resolves `@name` references against the session's constant table;
with no constants configured it is the identity and always succeeds. -/
def resolveConstants (s : String) : Option String := some s

/-- Modelled from the spec: `floatProperty` (outside the provided sources)
reads a float tag's stored value, falling back to the given default. -/
def floatPropertyA (a : AnimState) (tag : String) (dflt : Rat) : Rat :=
  match lookupP tag a.properties with
  | some (.apNum q) => q
  | _ => dflt

/-- Modelled from the spec: `intProperty` (outside the provided sources). -/
def intPropertyA (a : AnimState) (tag : String) (dflt : Int) : Int :=
  match lookupP tag a.properties with
  | some (.apInt n) => n
  | _ => dflt

/-- Modelled from the spec: `enumProperty` (outside the provided sources). -/
def enumPropertyA (a : AnimState) (tag : String) (dflt : Int) : Int :=
  match lookupP tag a.properties with
  | some (.apEnum n) => n
  | _ => dflt

/-- Rational rendering standing in for Go's `%g` float formatting (the exact
digits are irrelevant to every claim). -/
def ratCSS (q : Rat) : String :=
  if q.den = 1 then toString q.num else toString q.num ++ "/" ++ toString q.den

/-- `animationData.timingFunctionCSS`: the stored timing function, when it is
a string, resolves and validates; anything else degrades to `"ease"`. -/
def timingFunctionCSS (a : AnimState) : String :=
  match stringPropertyA a "timing-function" with
  | some tf =>
    match resolveConstants tf with
    | some tf2 => if validateTimingFunction tf2 then tf2 else "ease"
    | none => "ease"
  | none => "ease"

/-- The serialization tail of `animationData.animationCSS` after the keyframe
name: duration (fallback `1s`), timing function, delay (fallback `0s`),
iteration count (`0` renders as `1`, negative as `infinite`), direction
keyword, and the fixed `forwards` fill mode. -/
def animationBodyCSS (a : AnimState) (name : String) : String :=
  let dpart :=
    let d := floatPropertyA a "duration" 1
    if 0 < d then " " ++ ratCSS d ++ "s " else " 1s "
  let delayPart :=
    let d := floatPropertyA a "delay" 0
    if 0 < d then " " ++ ratCSS d ++ "s" else " 0s"
  let iter := intPropertyA a "iteration-count" 0
  let ipart :=
    if 0 ≤ iter then
      " " ++ toString (if iter = 0 then (1 : Int) else iter) ++ " "
    else " infinite "
  let dir := enumPropertyA a "animation-direction" 0
  let dir := if 0 ≤ dir ∧ dir < (directionValues.length : Int) then dir else 0
  name ++ dpart ++ timingFunctionCSS a ++ delayPart ++ ipart ++
    (directionValues.getD dir.toNat "normal") ++ " forwards"

/-- `animationData.animationCSS`: on first use with a valid animated-property
list, registers the keyframes and caches the returned name; later uses reuse
the cached name. Returns the CSS text together with the updated animation
and session states. -/
def animationCSS (a : AnimState) (s : SessionState) :
    String × AnimState × SessionState :=
  if a.keyFramesName = "" then
    match lookupP "property" a.properties with
    | some (.apProps props) =>
      let (name, s2) := registerAnimation s props
      let a2 := { a with keyFramesName := name }
      (animationBodyCSS a2 name, a2, s2)
    | some _ => ("", { a with log := a.log ++ ["Invalid animated properties."] }, s)
    | none => ("", { a with log := a.log ++ ["There are no animated properties."] }, s)
  else
    (animationBodyCSS a a.keyFramesName, a, s)

/-! ### Listener normalization (`src/unnamed/part_000`, `valueToAnimationListeners`) -/

/-- The canonical two-argument listener, remembering which accepted callback
shape it was normalized from (callbacks themselves are opaque, identified by
a number). -/
inductive CanonListener
  | ofCanonical (id : Nat)
  | ofPayload (id : Nat)
  | ofView (id : Nat)
  | ofZero (id : Nat)
  deriving Repr, DecidableEq

/-- One element of a heterogeneous `[]interface{}` listener collection. -/
inductive HElem
  | hNil
  | hCanonical (id : Nat)
  | hPayload (id : Nat)
  | hView (id : Nat)
  | hZero (id : Nat)
  | hOther (n : Nat)
  deriving Repr, DecidableEq

/-- The `interface{}` shapes `valueToAnimationListeners` dispatches on: a
single callback in any of the four accepted arities, a homogeneous slice of
one arity (whose elements may be nil functions), a heterogeneous slice, or
an unsupported value. The nil interface itself is `none` at the call sites. -/
inductive LValue
  | fCanonical (id : Nat)
  | fPayload (id : Nat)
  | fView (id : Nat)
  | fZero (id : Nat)
  | listCanonical (l : List (Option Nat))
  | listPayload (l : List (Option Nat))
  | listView (l : List (Option Nat))
  | listZero (l : List (Option Nat))
  | listAny (l : List HElem)
  | lOther (n : Nat)
  deriving Repr, DecidableEq

/-- The per-element conversion loop for a homogeneous listener slice: fails
(returns `none`) on the first nil element. -/
def convOpt (wrap : Nat → CanonListener) : List (Option Nat) → Option (List CanonListener)
  | [] => some []
  | none :: _ => none
  | some id :: rest =>
    match convOpt wrap rest with
    | some l => some (wrap id :: l)
    | none => none

/-- The per-element conversion loop for a heterogeneous `[]interface{}`
slice: fails on a nil element or an element of unsupported type. -/
def convAny : List HElem → Option (List CanonListener)
  | [] => some []
  | .hNil :: _ => none
  | .hOther _ :: _ => none
  | .hCanonical id :: rest =>
    match convAny rest with
    | some l => some (.ofCanonical id :: l)
    | none => none
  | .hPayload id :: rest =>
    match convAny rest with
    | some l => some (.ofPayload id :: l)
    | none => none
  | .hView id :: rest =>
    match convAny rest with
    | some l => some (.ofView id :: l)
    | none => none
  | .hZero id :: rest =>
    match convAny rest with
    | some l => some (.ofZero id :: l)
    | none => none

/-- `valueToAnimationListeners`: `(canonical list, ok)`. A nil value or an
empty slice yields `(nil, true)` — "no listeners", distinct from failure;
a slice with a nil or unsupported element yields `(nil, false)`; an
unsupported value yields `(nil, false)`. -/
def valueToAnimationListeners : Option LValue → Option (List CanonListener) × Bool
  | none => (none, true)
  | some v =>
    match v with
    | .fCanonical id => (some [.ofCanonical id], true)
    | .fPayload id => (some [.ofPayload id], true)
    | .fView id => (some [.ofView id], true)
    | .fZero id => (some [.ofZero id], true)
    | .listCanonical l =>
      if l.isEmpty then (none, true)
      else
        match convOpt .ofCanonical l with
        | some cl => (some cl, true)
        | none => (none, false)
    | .listPayload l =>
      if l.isEmpty then (none, true)
      else
        match convOpt .ofPayload l with
        | some cl => (some cl, true)
        | none => (none, false)
    | .listView l =>
      if l.isEmpty then (none, true)
      else
        match convOpt .ofView l with
        | some cl => (some cl, true)
        | none => (none, false)
    | .listZero l =>
      if l.isEmpty then (none, true)
      else
        match convOpt .ofZero l with
        | some cl => (some cl, true)
        | none => (none, false)
    | .listAny l =>
      if l.isEmpty then (none, true)
      else
        match convAny l with
        | some cl => (some cl, true)
        | none => (none, false)
    | .lOther _ => (none, false)

/-- A listener collection containing at least one nil element, or (in the
heterogeneous case) one element of unsupported type. -/
def hasInvalidElem : LValue → Bool
  | .listCanonical l => l.contains none
  | .listPayload l => l.contains none
  | .listView l => l.contains none
  | .listZero l => l.contains none
  | .listAny l =>
    l.any (fun e =>
      match e with
      | .hNil => true
      | .hOther _ => true
      | _ => false)
  | _ => false

/-! ### View state (`view.go`, `viewData`) -/

/-- Observable effects of view mutation: instructions sent to the rendering
surface (`updateCSSProperty`, `updateProperty`, `removeProperty`,
`updateInnerHTML`, `runScript`), change-listener invocations (`notify`),
event-listener invocations (`dispatch`), and diagnostic logs. -/
inductive Instr
  | updateCSS (htmlID prop val : String)
  | updateProp (htmlID prop val : String)
  | removeProp (htmlID prop : String)
  | updateInner (htmlID : String)
  | runScript (script : String)
  | notify (tag : String)
  | dispatch (tag payload : String)
  | errorLog (msg : String)
  deriving Repr, DecidableEq

/-- The `interface{}` shapes relevant to the embedded `Set` paths on views. -/
inductive VValue
  | vStr (s : String)
  | vNum (q : Rat)
  | vInt (n : Int)
  | vBorder (b : Nat)
  | vTransitions (l : List (String × Nat))
  | vListeners (lv : LValue)
  | vStrList (l : List String)
  | vAny (n : Nat)
  deriving Repr, DecidableEq

/-- Values stored in a view's property map: a raw value, or a normalized
listener list. -/
inductive PValue
  | pRaw (v : VValue)
  | pListeners (l : List CanonListener)
  deriving Repr, DecidableEq

/-- `viewData`: property store, the `transitions` map (tag to the currently
effective animation, animations being opaque references), the
`singleTransition` map (tag to saved prior animation or the nil sentinel),
change-listener registrations (the tags having one), the `created` flag, and
the output of effects so far. -/
structure ViewState where
  viewID : String
  htmlID : String
  props : List (String × PValue)
  transitions : List (String × Nat)
  singleTransition : List (String × Option Nat)
  changeListener : List String
  created : Bool
  out : List Instr
  deriving Repr, DecidableEq

/-- A freshly initialized, already materialized view. -/
def emptyView : ViewState :=
  { viewID := "", htmlID := "v1", props := [], transitions := [],
    singleTransition := [], changeListener := [], created := true, out := [] }

/-- Append one effect to the view's output. -/
def emitV (v : ViewState) (i : Instr) : ViewState := { v with out := v.out ++ [i] }

/-- `notCompatibleType` diagnostic (log only). -/
def logErrV (v : ViewState) (tag : String) : ViewState :=
  emitV v (.errorLog ("notCompatibleType: " ++ tag))

/-- The `transitionEvents` table: property tag, JavaScript event attribute,
JavaScript handler. -/
def transitionEventsTable : List (String × String × String) :=
  [("transition-run-event", "ontransitionrun", "transitionRunEvent"),
   ("transition-start-event", "ontransitionstart", "transitionStartEvent"),
   ("transition-end-event", "ontransitionend", "transitionEndEvent"),
   ("transition-cancel-event", "ontransitioncancel", "transitionCancelEvent")]

/-- The `animationEvents` table. -/
def animationEventsTable : List (String × String × String) :=
  [("animation-start-event", "onanimationstart", "animationStartEvent"),
   ("animation-end-event", "onanimationend", "animationEndEvent"),
   ("animation-iteration-event", "onanimationiteration", "animationIterationEvent"),
   ("animation-cancel-event", "onanimationcancel", "animationCancelEvent")]

/-- Modelled from the spec: `getBorder` (defined in the border module,
outside the provided sources) returns the view's configured border, absent
when no border is configured (§4.3: "if no border is configured at all"). -/
def getBorderM (v : ViewState) : Option Nat :=
  match lookupP "border" v.props with
  | some (.pRaw (.vBorder b)) => some b
  | _ => none

/-- Modelled from the spec: the border's width CSS value (serialization of
the structured border value is outside the provided sources and opaque to
every claim). -/
def cssWidthValue (b : Nat) : String := "borderw" ++ toString b

/-- Modelled from the spec: the border's color CSS value. -/
def cssColorValue (b : Nat) : String := "borderc" ++ toString b

/-- Modelled from the spec: the border's style CSS value. -/
def cssStyleValue (b : Nat) : String := "borders" ++ toString b

/-- Modelled from the spec: the per-animation transition shorthand appended
after the property name in the aggregate `transition` declaration
(`animationData.transitionCSS`); the view stores opaque animation
references, so the shorthand is rendered from the reference. -/
def animRefTransitionCSS (r : Nat) : String := " anim" ++ toString r

/-- `viewStyle.transitionCSS`: the aggregate declaration across all tags
(Go map iteration is modelled as association-list order). -/
def transitionsCSSStr (ts : List (String × Nat)) : String :=
  ts.foldl
    (fun acc p => (if acc = "" then acc else acc ++ ", ") ++ p.1 ++ animRefTransitionCSS p.2)
    ""

/-- `viewData.updateTransitionCSS`. -/
def updateTransitionCSS (v : ViewState) : ViewState :=
  emitV v (.updateCSS v.htmlID "transition" (transitionsCSSStr v.transitions))

/-- The float-valued tags with known ranges. Modelled from the spec: the
coercion table of §4.1 is outside the provided sources; only the tags the
claims exercise are listed. -/
def floatRangeTags : List (String × Rat × Rat) := [("opacity", 0, 1)]

/-- Reads a stored float value. -/
def floatPropertyV (v : ViewState) (tag : String) : Option Rat :=
  match lookupP tag v.props with
  | some (.pRaw (.vNum q)) => some q
  | _ => none

/-- Modelled from the spec: `viewStyle.set` (outside the provided sources)
coerces the supplied value to the tag's declared kind (§4.1) — the
`"transition"` tag stores the transitions mapping, the `"border"` tag a
structured border value, float-range tags accept numbers and numeric strings
within range; an unrecognized tag is unsupported and the set fails with the
store unchanged (§7, UnsupportedTag). -/
def viewStyleSet (v : ViewState) (tag : String) (value : VValue) : ViewState × Bool :=
  if tag = "transition" then
    match value with
    | .vTransitions l => ({ v with transitions := l }, true)
    | _ => (logErrV v tag, false)
  else if tag = "border" then
    match value with
    | .vBorder b => ({ v with props := insertP tag (.pRaw (.vBorder b)) v.props }, true)
    | _ => (logErrV v tag, false)
  else
    match lookupP tag floatRangeTags with
    | some (lo, hi) =>
      match value with
      | .vNum q =>
        if lo ≤ q ∧ q ≤ hi then
          ({ v with props := insertP tag (.pRaw (.vNum q)) v.props }, true)
        else (logErrV v tag, false)
      | .vStr s =>
        match parseFloat? s with
        | some q =>
          if lo ≤ q ∧ q ≤ hi then
            ({ v with props := insertP tag (.pRaw (.vNum q)) v.props }, true)
          else (logErrV v tag, false)
        | none => (logErrV v tag, false)
      | _ => (logErrV v tag, false)
    | none => (logErrV v tag, false)

/-- Modelled from the spec: `viewStyle.remove` (outside the provided
sources) erases the stored value; removing the `"transition"` tag clears the
transitions mapping. -/
def viewStyleRemove (v : ViewState) (tag : String) : ViewState :=
  if tag = "transition" then
    { v with transitions := [], props := eraseP tag v.props }
  else { v with props := eraseP tag v.props }

/-- The four whole-edge border tags. -/
def borderEdgeTags : List String :=
  ["border-left", "border-right", "border-top", "border-bottom"]

/-- The border style tags of `viewPropertyChanged`'s style case. -/
def borderStyleTags : List String :=
  ["border-style", "border-left-style", "border-right-style", "border-top-style",
   "border-bottom-style"]

/-- The border color tags of `viewPropertyChanged`'s color case. -/
def borderColorTags : List String :=
  ["border-color", "border-left-color", "border-right-color", "border-top-color",
   "border-bottom-color"]

/-- The border width tags of `viewPropertyChanged`'s width case. -/
def borderWidthTags : List String :=
  ["border-width", "border-left-width", "border-right-width", "border-top-width",
   "border-bottom-width"]

/-- The float-valued tags of `viewPropertyChanged`'s final loop. -/
def floatChangeTags : List String :=
  ["opacity", "scale-x", "scale-y", "scale-z", "rotate-x", "rotate-y", "rotate-z"]

/-- `viewPropertyChanged` from `view.go`: the instructions sent to the
rendering surface for a changed tag. A configured border recomputes the
width/color/style triple for the `"border"` tag and the whole-edge tags, and
exactly the matching single CSS property for a style/color/width sub-tag; an
unconfigured border clears the triple only for the `"border"` tag itself.
The embedding covers the border, outline, transition and float-tag cases the
claims exercise; the transform handling (`updateTransformProperty`) and the
remaining tag families apply to none of those tags and emit nothing here. -/
def viewPropertyChanged (v : ViewState) (tag : String) : List Instr :=
  let h := v.htmlID
  if tag = "border" then
    match getBorderM v with
    | none =>
      [.updateCSS h "border-width" "", .updateCSS h "border-color" "",
       .updateCSS h "border-style" "none"]
    | some b =>
      [.updateCSS h "border-width" (cssWidthValue b),
       .updateCSS h "border-color" (cssColorValue b),
       .updateCSS h "border-style" (cssStyleValue b)]
  else if borderEdgeTags.contains tag then
    match getBorderM v with
    | some b =>
      [.updateCSS h "border-width" (cssWidthValue b),
       .updateCSS h "border-color" (cssColorValue b),
       .updateCSS h "border-style" (cssStyleValue b)]
    | none => []
  else if borderStyleTags.contains tag then
    match getBorderM v with
    | some b => [.updateCSS h "border-style" (cssStyleValue b)]
    | none => []
  else if borderColorTags.contains tag then
    match getBorderM v with
    | some b => [.updateCSS h "border-color" (cssColorValue b)]
    | none => []
  else if borderWidthTags.contains tag then
    match getBorderM v with
    | some b => [.updateCSS h "border-width" (cssWidthValue b)]
    | none => []
  else if tag = "transition" then
    [.updateCSS h "transition" (transitionsCSSStr v.transitions)]
  else if floatChangeTags.contains tag then
    match floatPropertyV v tag with
    | some q => [.updateCSS h tag (ratCSS q)]
    | none => []
  else []

/-- The sub-tag to group-tag reassignment inside `propertyChangedEvent`. -/
def groupTag (tag : String) : Option String :=
  if borderEdgeTags.contains tag ∨ borderStyleTags.contains tag ∨
     borderColorTags.contains tag ∨ borderWidthTags.contains tag then
    some "border"
  else if ["cell-border-style", "cell-border-color", "cell-border-width",
           "cell-border-left", "cell-border-left-style", "cell-border-left-color",
           "cell-border-left-width",
           "cell-border-right", "cell-border-right-style", "cell-border-right-color",
           "cell-border-right-width",
           "cell-border-top", "cell-border-top-style", "cell-border-top-color",
           "cell-border-top-width",
           "cell-border-bottom", "cell-border-bottom-style", "cell-border-bottom-color",
           "cell-border-bottom-width"].contains tag then
    some "cell-border"
  else if ["outline-color", "outline-style", "outline-width"].contains tag then
    some "outline"
  else if ["radius-x", "radius-y", "radius-top-left", "radius-top-left-x",
           "radius-top-left-y", "radius-top-right", "radius-top-right-x",
           "radius-top-right-y", "radius-bottom-left", "radius-bottom-left-x",
           "radius-bottom-left-y", "radius-bottom-right", "radius-bottom-right-x",
           "radius-bottom-right-y"].contains tag then
    some "radius"
  else if ["margin-top", "margin-right", "margin-bottom", "margin-left",
           "top-margin", "right-margin", "bottom-margin", "left-margin"].contains tag then
    some "margin"
  else if ["padding-top", "padding-right", "padding-bottom", "padding-left",
           "top-padding", "right-padding", "bottom-padding", "left-padding"].contains tag then
    some "padding"
  else if ["cell-padding-top", "cell-padding-right", "cell-padding-bottom",
           "cell-padding-left"].contains tag then
    some "cell-padding"
  else if ["column-separator-style", "column-separator-width",
           "column-separator-color"].contains tag then
    some "column-separator"
  else none

/-- `viewData.propertyChangedEvent`: invokes the change listener of the
literal tag, then — when the tag belongs to a grouped family — the listener
of the group tag. -/
def propertyChangedEvent (v : ViewState) (tag : String) : ViewState :=
  let v := if v.changeListener.contains tag then emitV v (.notify tag) else v
  match groupTag tag with
  | some g => if v.changeListener.contains g then emitV v (.notify g) else v
  | none => v

/-- `viewData.removeTransitionListener`. -/
def removeTransitionListener (v : ViewState) (tag : String) : ViewState :=
  let v := { v with props := eraseP tag v.props }
  if v.created then
    match lookupP tag transitionEventsTable with
    | some (je, _) => emitV v (.removeProp v.htmlID je)
    | none => v
  else v

/-- `viewData.removeAnimationListener`. -/
def removeAnimationListener (v : ViewState) (tag : String) : ViewState :=
  let v := { v with props := eraseP tag v.props }
  if v.created then
    match lookupP tag animationEventsTable with
    | some (je, _) => emitV v (.removeProp v.htmlID je)
    | none => v
  else v

/-- `viewData.setTransitionListener`: failed normalization rejects the set
with the store unchanged; a nil listener list removes the tag; otherwise the
canonical list is stored and, when the view is materialized, the JavaScript
event binding is updated. -/
def setTransitionListener (v : ViewState) (tag : String) (value : Option LValue) :
    ViewState × Bool :=
  match valueToAnimationListeners value with
  | (_, false) => (logErrV v tag, false)
  | (none, true) => (removeTransitionListener v tag, true)
  | (some listeners, true) =>
    match lookupP tag transitionEventsTable with
    | some (je, jf) =>
      let v := { v with props := insertP tag (.pListeners listeners) v.props }
      let v :=
        if v.created then emitV v (.updateProp v.htmlID je (jf ++ "(this, event)")) else v
      (v, true)
    | none => (v, false)

/-- `viewData.setAnimationListener`. -/
def setAnimationListener (v : ViewState) (tag : String) (value : Option LValue) :
    ViewState × Bool :=
  match valueToAnimationListeners value with
  | (_, false) => (logErrV v tag, false)
  | (none, true) => (removeAnimationListener v tag, true)
  | (some listeners, true) =>
    match lookupP tag animationEventsTable with
    | some (je, jf) =>
      let v := { v with props := insertP tag (.pListeners listeners) v.props }
      let v :=
        if v.created then emitV v (.updateProp v.htmlID je (jf ++ "(this, event)")) else v
      (v, true)
    | none => (v, false)

/-- `viewData.htmlClass` restricted to the enabled state (`IsDisabled` lives
outside the provided sources; the claims never disable a view). -/
def htmlClassM (v : ViewState) : String :=
  "ruiView" ++
    (match lookupP "style" v.props with
     | some (.pRaw (.vStr s)) => " " ++ s
     | _ => "")

/-- A listener-tag set receives its raw value through
`valueToAnimationListeners`; any non-listener value is an unsupported shape
there. -/
def vvalueToLValue : VValue → LValue
  | .vListeners lv => lv
  | _ => .lOther 0

/-- `viewData.remove` (tag already lowercased): `"id"` clears the view
identifier, `"user-data"` deletes the entry, styles delete and refresh the
class attribute, transition/animation event tags go through the listener
removers, and any other tag is removed from the style store with change
propagation. The focus/key/mouse/pointer/touch/resize/content cases concern
tag families outside every claim and are not embedded. -/
def viewRemoveL (v : ViewState) (tag : String) : ViewState :=
  let v :=
    if tag = "id" then { v with viewID := "" }
    else if tag = "user-data" then { v with props := eraseP tag v.props }
    else if tag = "style" ∨ tag = "style-disabled" then
      if (lookupP tag v.props).isSome then
        let v := { v with props := eraseP tag v.props }
        emitV v (.updateProp v.htmlID "class" (htmlClassM v))
      else v
    else if (lookupP tag transitionEventsTable).isSome then
      removeTransitionListener v tag
    else if (lookupP tag animationEventsTable).isSome then
      removeAnimationListener v tag
    else
      let v := viewStyleRemove v tag
      { v with out := v.out ++ viewPropertyChanged v tag }
  propertyChangedEvent v tag

/-- `viewData.set` (tag already lowercased). A nil value removes the tag and
succeeds. Listener tags normalize through the listener setters; every other
tag goes to the style store, propagating the change to the rendering surface
when the view is materialized; the property-changed event fires after any
successful mutation. -/
def viewSetL (v : ViewState) (tag : String) (value : Option VValue) : ViewState × Bool :=
  match value with
  | none => (viewRemoveL v tag, true)
  | some value =>
    if tag = "id" then
      match value with
      | .vStr s => (propertyChangedEvent { v with viewID := s } tag, true)
      | _ => (logErrV v "id", false)
    else if tag = "user-data" then
      (propertyChangedEvent { v with props := insertP tag (.pRaw value) v.props } tag, true)
    else if tag = "style" ∨ tag = "style-disabled" then
      match value with
      | .vStr s =>
        let v := { v with props := insertP tag (.pRaw (.vStr s)) v.props }
        let v := if v.created then emitV v (.updateProp v.htmlID "class" (htmlClassM v)) else v
        (propertyChangedEvent v tag, true)
      | _ => (logErrV v "id", false)
    else if (lookupP tag transitionEventsTable).isSome then
      let r := setTransitionListener v tag (some (vvalueToLValue value))
      if r.2 then (propertyChangedEvent r.1 tag, true) else (r.1, false)
    else if (lookupP tag animationEventsTable).isSome then
      let r := setAnimationListener v tag (some (vvalueToLValue value))
      if r.2 then (propertyChangedEvent r.1 tag, true) else (r.1, false)
    else
      let r := viewStyleSet v tag value
      if r.2 then
        let v3 := if r.1.created then { r.1 with out := r.1.out ++ viewPropertyChanged r.1 tag } else r.1
        (propertyChangedEvent v3 tag, true)
      else (r.1, false)

/-- `viewData.Set`: lowercases the tag and dispatches. -/
def viewSet (v : ViewState) (tag : String) (value : Option VValue) : ViewState × Bool :=
  viewSetL v (toLowerS tag) value

/-- `viewData.Remove`: lowercases the tag and dispatches. -/
def viewRemove (v : ViewState) (tag : String) : ViewState :=
  viewRemoveL v (toLowerS tag)

/-! ### Animated set and transition events (`animation.go`, `part_000`) -/

/-- The prelude of `viewData.SetAnimated` with a non-nil animation: the
terminal-event bindings are refreshed, the current `transitions[tag]` (or
the nil sentinel) is saved into `singleTransition[tag]`, the override is
installed, and the aggregate transition declaration is recomputed. -/
def setAnimatedPrepared (v : ViewState) (tag : String) (anim : Nat) : ViewState :=
  let v := emitV v (.updateProp v.htmlID "ontransitionend" "transitionEndEvent(this, event)")
  let v := emitV v (.updateProp v.htmlID "ontransitioncancel" "transitionCancelEvent(this, event)")
  let v := { v with singleTransition := insertP tag (lookupP tag v.transitions) v.singleTransition }
  let v := { v with transitions := insertP tag anim v.transitions }
  updateTransitionCSS v

/-- `viewData.SetAnimated`: with a nil animation this is exactly `Set`.
Otherwise, after the override prelude, the ordinary mutation runs; if the
mutation fails, `singleTransition[tag]` is deleted and the aggregate
declaration recomputed again. -/
def setAnimated (v : ViewState) (tag : String) (value : Option VValue)
    (animation : Option Nat) : ViewState × Bool :=
  match animation with
  | none => viewSet v tag value
  | some anim =>
    let r := viewSet (setAnimatedPrepared v tag anim) tag value
    if r.2 then (r.1, true)
    else
      (updateTransitionCSS { r.1 with singleTransition := eraseP tag r.1.singleTransition }, false)

/-- `getAnimationListeners` restricted to the view itself: the stored
canonical listener list of an event tag, empty when absent. -/
def getAnimationListenersV (v : ViewState) (tag : String) : List CanonListener :=
  match lookupP tag v.props with
  | some (.pListeners l) => l
  | _ => []

/-- `viewData.handleTransitionEvents`: an event without a `property` value
does nothing. A terminal event (end/cancel) whose tag is in
`singleTransition` removes that entry, restores the saved animation into
`transitions` (or deletes the tag when the saved value was the nil
sentinel), and recomputes the aggregate declaration; run/start events skip
this. All events then forward to the registered listeners of the event
kind. -/
def handleTransitionEvents (v : ViewState) (tag : String) (property : Option String) :
    ViewState :=
  match property with
  | none => v
  | some property =>
    let v :=
      if tag = "transition-end-event" ∨ tag = "transition-cancel-event" then
        match lookupP property v.singleTransition with
        | some animation =>
          let v := { v with singleTransition := eraseP property v.singleTransition }
          let v :=
            match animation with
            | some a => { v with transitions := insertP property a v.transitions }
            | none => { v with transitions := eraseP property v.transitions }
          updateTransitionCSS v
        | none => v
      else v
    { v with out := v.out ++ (getAnimationListenersV v tag).map (fun _ => .dispatch tag property) }

/-- `viewData.getTransitions`: a copy of the transitions map. -/
def getTransitions (v : ViewState) : List (String × Nat) := v.transitions

/-- Modelled from the spec: subview resolution by identifier (§6) may fail;
modelled after the base `viewData.ViewByID` — the view itself when the
identifier matches its `"id"` property, absent otherwise. -/
def viewByID (v : ViewState) (id : String) : Option ViewState :=
  if id = v.viewID then some v else none

/-- The view `AddTransition` operates on: the receiver when no subview
identifier is given, otherwise the resolved subview. -/
def resolveTargetView (view : Option ViewState) (subviewID : String) : Option ViewState :=
  if subviewID ≠ "" then view.bind (fun v => viewByID v subviewID) else view

/-- Package-level `AddTransition` from `animation.go`: an empty tag or an
unresolvable view fails without touching any state; otherwise the tag is
added to a copy of the target's transitions and the `"transition"` property
is set. The first component is the state of the target view after the call
(unchanged on the failure paths). -/
def addTransition (view : Option ViewState) (subviewID tag : String) (animation : Nat) :
    Option ViewState × Bool :=
  if tag = "" then (view, false)
  else
    match resolveTargetView view subviewID with
    | none => (view, false)
    | some t =>
      let transitions := insertP tag animation (getTransitions t)
      let r := viewSet t "transition" (some (.vTransitions transitions))
      (some r.1, r.2)

/-! ### Drop-down list (`src/unnamed/part_001`, `dropDownListData`) -/

/-- A disabled-item entry: an index or a constant reference. -/
inductive DDItem
  | byIndex (n : Int)
  | byConst (s : String)
  deriving Repr, DecidableEq

/-- `dropDownListData`: the base view plus items, disabled items and the
drop-down listener list (listeners opaque, identified by number). -/
structure DDState where
  base : ViewState
  items : List String
  disabledItems : List DDItem
  dropDownListener : List Nat
  deriving Repr, DecidableEq

/-- A freshly initialized drop-down list. -/
def emptyDDL : DDState :=
  { base := emptyView, items := [], disabledItems := [], dropDownListener := [] }

/-- `GetCurrent` (outside the provided sources): the stored `"current"`
integer, defaulting to 0. Modelled from the spec's integer coercion. -/
def getCurrentD (d : DDState) : Int :=
  match lookupP "current" d.base.props with
  | some (.pRaw (.vInt n)) => n
  | _ => 0

/-- `dropDownListData.onSelectedItemChanged`: invokes the drop-down
listeners, then fires the property-changed event for `"current"`. -/
def onSelectedItemChanged (d : DDState) (n : Int) : DDState :=
  let b := { d.base with
    out := d.base.out ++ d.dropDownListener.map (fun _ => Instr.dispatch "drop-down-event" (toString n)) }
  { d with base := propertyChangedEvent b "current" }

/-- `dropDownListData.remove` (tag already lowercased). -/
def ddlRemoveL (d : DDState) (tag : String) : DDState :=
  if tag = "items" then
    if d.items.isEmpty then d
    else
      let d := { d with items := [] }
      let d :=
        if d.base.created then { d with base := emitV d.base (.updateInner d.base.htmlID) } else d
      { d with base := propertyChangedEvent d.base tag }
  else if tag = "disabled-items" then
    if d.disabledItems.isEmpty then d
    else
      let d := { d with disabledItems := [] }
      let d :=
        if d.base.created then { d with base := emitV d.base (.updateInner d.base.htmlID) } else d
      { d with base := propertyChangedEvent d.base tag }
  else if tag = "drop-down-event" then
    if d.dropDownListener.isEmpty then d
    else
      let d := { d with dropDownListener := [] }
      { d with base := propertyChangedEvent d.base tag }
  else if tag = "current" then
    let oldCurrent := getCurrentD d
    let d := { d with base := { d.base with props := eraseP "current" d.base.props } }
    if oldCurrent ≠ 0 then
      let d :=
        if d.base.created then
          { d with base := emitV d.base (Instr.runScript ("selectDropDownListItem(" ++ d.base.htmlID ++ ", 0)")) }
        else d
      onSelectedItemChanged d 0
    else d
  else { d with base := viewRemoveL d.base tag }

/-- `dropDownListData.setItems` restricted to the string and string-slice
shapes (the `DataValue`/`Stringer`/mixed-slice shapes concern no claim). -/
def ddlSetItems (d : DDState) (value : VValue) : DDState × Bool :=
  match value with
  | .vStr s => let d := { d with items := [s] }
               let d := if d.base.created then { d with base := emitV d.base (.updateInner d.base.htmlID) } else d
               ({ d with base := propertyChangedEvent d.base "items" }, true)
  | .vStrList l => let d := { d with items := l }
                   let d := if d.base.created then { d with base := emitV d.base (.updateInner d.base.htmlID) } else d
                   ({ d with base := propertyChangedEvent d.base "items" }, true)
  | _ => ({ d with base := logErrV d.base "items" }, false)

/-- `dropDownListData.set` (tag already lowercased). A nil value removes the
tag and succeeds; `"current"` stores the coerced integer and reports a
selection change; other list tags go through their setters (restricted to
the claim-relevant value shapes); everything else falls through to the base
view `set`. -/
def ddlSetL (d : DDState) (tag : String) (value : Option VValue) : DDState × Bool :=
  match value with
  | none => (ddlRemoveL d tag, true)
  | some value =>
    if tag = "items" then ddlSetItems d value
    else if tag = "disabled-items" then
      match value with
      | .vStrList _ => (d, true)
      | _ => ({ d with base := logErrV d.base "disabled-items" }, false)
    else if tag = "drop-down-event" then
      match value with
      | .vAny n => ({ d with dropDownListener := [n],
                             base := propertyChangedEvent d.base tag }, true)
      | _ => ({ d with base := logErrV d.base "drop-down-event" }, false)
    else if tag = "current" then
      match value with
      | .vInt n =>
        let oldCurrent := getCurrentD d
        let d := { d with base := { d.base with props := insertP "current" (.pRaw (.vInt n)) d.base.props } }
        let current := getCurrentD d
        if oldCurrent ≠ current then
          let d :=
            if d.base.created then
              { d with base := emitV d.base (Instr.runScript ("selectDropDownListItem(" ++ d.base.htmlID ++ ", " ++ toString current ++ ")")) }
            else d
          (onSelectedItemChanged d current, true)
        else (d, true)
      | _ => ({ d with base := logErrV d.base "current" }, false)
    else
      let r := viewSetL d.base tag (some value)
      ({ d with base := r.1 }, r.2)

/-- `dropDownListData.Set`: lowercases the tag and dispatches. -/
def ddlSet (d : DDState) (tag : String) (value : Option VValue) : DDState × Bool :=
  ddlSetL d (toLowerS tag) value

/-- `dropDownListData.Remove`: lowercases the tag and dispatches. -/
def ddlRemove (d : DDState) (tag : String) : DDState :=
  ddlRemoveL d (toLowerS tag)

/-! ### State-preservation lemmas for the view operations -/

/-- Two view states that differ at most in their emitted output. -/
def outOnly (v w : ViewState) : Prop :=
  w.viewID = v.viewID ∧ w.props = v.props ∧ w.transitions = v.transitions ∧
  w.singleTransition = v.singleTransition ∧ w.changeListener = v.changeListener ∧
  w.created = v.created

theorem outOnly_refl (v : ViewState) : outOnly v v :=
  ⟨rfl, rfl, rfl, rfl, rfl, rfl⟩

theorem outOnly_propertyChangedEvent (v : ViewState) (tag : String) :
    outOnly v (propertyChangedEvent v tag) := by
  unfold propertyChangedEvent
  dsimp only
  repeat' split
  all_goals exact ⟨rfl, rfl, rfl, rfl, rfl, rfl⟩

theorem pce_props (v : ViewState) (tag : String) :
    (propertyChangedEvent v tag).props = v.props :=
  (outOnly_propertyChangedEvent v tag).2.1

theorem pce_transitions (v : ViewState) (tag : String) :
    (propertyChangedEvent v tag).transitions = v.transitions :=
  (outOnly_propertyChangedEvent v tag).2.2.1

theorem pce_singleTransition (v : ViewState) (tag : String) :
    (propertyChangedEvent v tag).singleTransition = v.singleTransition :=
  (outOnly_propertyChangedEvent v tag).2.2.2.1

theorem removeTransitionListener_core (v : ViewState) (tag : String) :
    (removeTransitionListener v tag).transitions = v.transitions ∧
      (removeTransitionListener v tag).singleTransition = v.singleTransition := by
  unfold removeTransitionListener
  dsimp only
  repeat' split
  all_goals exact ⟨rfl, rfl⟩

theorem removeAnimationListener_core (v : ViewState) (tag : String) :
    (removeAnimationListener v tag).transitions = v.transitions ∧
      (removeAnimationListener v tag).singleTransition = v.singleTransition := by
  unfold removeAnimationListener
  dsimp only
  repeat' split
  all_goals exact ⟨rfl, rfl⟩

theorem viewStyleSet_cases (v : ViewState) (tag : String) (value : VValue) :
    (viewStyleSet v tag value).2 = true ∨ outOnly v (viewStyleSet v tag value).1 := by
  unfold viewStyleSet
  repeat' split
  all_goals first
    | (left; rfl)
    | (right; exact ⟨rfl, rfl, rfl, rfl, rfl, rfl⟩)

theorem setTransitionListener_cases (v : ViewState) (tag : String) (lv : Option LValue) :
    (setTransitionListener v tag lv).2 = true ∨
      outOnly v (setTransitionListener v tag lv).1 := by
  unfold setTransitionListener
  repeat' split
  all_goals first
    | (left; rfl)
    | (right; exact ⟨rfl, rfl, rfl, rfl, rfl, rfl⟩)

theorem setAnimationListener_cases (v : ViewState) (tag : String) (lv : Option LValue) :
    (setAnimationListener v tag lv).2 = true ∨
      outOnly v (setAnimationListener v tag lv).1 := by
  unfold setAnimationListener
  repeat' split
  all_goals first
    | (left; rfl)
    | (right; exact ⟨rfl, rfl, rfl, rfl, rfl, rfl⟩)

theorem setTransitionListener_core (v : ViewState) (tag : String) (lv : Option LValue) :
    (setTransitionListener v tag lv).1.transitions = v.transitions ∧
      (setTransitionListener v tag lv).1.singleTransition = v.singleTransition := by
  unfold setTransitionListener
  dsimp only
  repeat' split
  all_goals first
    | exact ⟨rfl, rfl⟩
    | exact removeTransitionListener_core v tag

theorem setAnimationListener_core (v : ViewState) (tag : String) (lv : Option LValue) :
    (setAnimationListener v tag lv).1.transitions = v.transitions ∧
      (setAnimationListener v tag lv).1.singleTransition = v.singleTransition := by
  unfold setAnimationListener
  dsimp only
  repeat' split
  all_goals first
    | exact ⟨rfl, rfl⟩
    | exact removeAnimationListener_core v tag

theorem viewStyleSet_singleTransition (v : ViewState) (tag : String) (value : VValue) :
    (viewStyleSet v tag value).1.singleTransition = v.singleTransition := by
  unfold viewStyleSet
  repeat' split
  all_goals rfl

theorem viewStyleSet_transitions_ne (v : ViewState) (tag : String) (value : VValue)
    (h : tag ≠ "transition") :
    (viewStyleSet v tag value).1.transitions = v.transitions := by
  unfold viewStyleSet
  rw [if_neg h]
  repeat' split
  all_goals rfl

theorem viewRemoveL_singleTransition (v : ViewState) (tag : String) :
    (viewRemoveL v tag).singleTransition = v.singleTransition := by
  unfold viewRemoveL
  dsimp only
  rw [pce_singleTransition]
  repeat' split
  all_goals first
    | rfl
    | exact (removeTransitionListener_core v tag).2
    | exact (removeAnimationListener_core v tag).2
    | (unfold viewStyleRemove; repeat' split; all_goals rfl)

theorem viewRemoveL_transitions_ne (v : ViewState) (tag : String)
    (h : tag ≠ "transition") :
    (viewRemoveL v tag).transitions = v.transitions := by
  unfold viewRemoveL
  dsimp only
  rw [pce_transitions]
  repeat' split
  all_goals first
    | rfl
    | exact (removeTransitionListener_core v tag).1
    | exact (removeAnimationListener_core v tag).1
    | (unfold viewStyleRemove; rw [if_neg h])

theorem viewSetL_singleTransition (v : ViewState) (tag : String) (value : Option VValue) :
    (viewSetL v tag value).1.singleTransition = v.singleTransition := by
  cases value with
  | none => exact viewRemoveL_singleTransition v tag
  | some val =>
    unfold viewSetL
    dsimp only
    repeat' split
    all_goals dsimp only
    all_goals first
      | rfl
      | (rw [pce_singleTransition]; done)
      | (rw [pce_singleTransition]; rfl)
      | (rw [pce_singleTransition]; exact (setTransitionListener_core v tag _).2)
      | (rw [pce_singleTransition]; exact (setAnimationListener_core v tag _).2)
      | (rw [pce_singleTransition]; exact viewStyleSet_singleTransition v tag _)
      | exact (setTransitionListener_core v tag _).2
      | exact (setAnimationListener_core v tag _).2
      | exact viewStyleSet_singleTransition v tag _


theorem viewSetL_transitions_ne (v : ViewState) (tag : String) (value : Option VValue)
    (h : tag ≠ "transition") :
    (viewSetL v tag value).1.transitions = v.transitions := by
  cases value with
  | none => exact viewRemoveL_transitions_ne v tag h
  | some val =>
    unfold viewSetL
    dsimp only
    repeat' split
    all_goals dsimp only
    all_goals first
      | rfl
      | (rw [pce_transitions]; done)
      | (rw [pce_transitions]; rfl)
      | (rw [pce_transitions]; exact (setTransitionListener_core v tag _).1)
      | (rw [pce_transitions]; exact (setAnimationListener_core v tag _).1)
      | (rw [pce_transitions]; exact viewStyleSet_transitions_ne v tag _ h)
      | exact (setTransitionListener_core v tag _).1
      | exact (setAnimationListener_core v tag _).1
      | exact viewStyleSet_transitions_ne v tag _ h

theorem viewSetL_cases (v : ViewState) (tag : String) (value : Option VValue) :
    (viewSetL v tag value).2 = true ∨ outOnly v (viewSetL v tag value).1 := by
  cases value with
  | none => left; rfl
  | some val =>
    unfold viewSetL
    dsimp only
    repeat' split
    all_goals dsimp only
    all_goals first
      | (left; rfl)
      | (right; exact outOnly_refl v)
      | (right; exact outOnly_logErrV v _)
      | (right; exact (setTransitionListener_cases v tag _).resolve_left (by assumption))
      | (right; exact (setAnimationListener_cases v tag _).resolve_left (by assumption))
      | (right; exact (viewStyleSet_cases v tag _).resolve_left (by assumption))

/-- The success of a listener-tag set as a function of value and tag alone. -/
def setListenerOk (tag : String) (lv : Option LValue)
    (table : List (String × String × String)) : Bool :=
  match valueToAnimationListeners lv with
  | (_, false) => false
  | (none, true) => true
  | (some _, true) => (lookupP tag table).isSome

theorem setTransitionListener_snd (v : ViewState) (tag : String) (lv : Option LValue) :
    (setTransitionListener v tag lv).2 = setListenerOk tag lv transitionEventsTable := by
  unfold setTransitionListener setListenerOk
  repeat' split
  all_goals simp_all

theorem setAnimationListener_snd (v : ViewState) (tag : String) (lv : Option LValue) :
    (setAnimationListener v tag lv).2 = setListenerOk tag lv animationEventsTable := by
  unfold setAnimationListener setListenerOk
  repeat' split
  all_goals simp_all

/-- The success of `viewStyleSet` as a function of value and tag alone. -/
def viewStyleSetOk (tag : String) (value : VValue) : Bool :=
  if tag = "transition" then
    match value with
    | .vTransitions _ => true
    | _ => false
  else if tag = "border" then
    match value with
    | .vBorder _ => true
    | _ => false
  else
    match lookupP tag floatRangeTags with
    | some (lo, hi) =>
      match value with
      | .vNum q => decide (lo ≤ q ∧ q ≤ hi)
      | .vStr s =>
        match parseFloat? s with
        | some q => decide (lo ≤ q ∧ q ≤ hi)
        | none => false
      | _ => false
    | none => false

theorem viewStyleSet_snd (v : ViewState) (tag : String) (value : VValue) :
    (viewStyleSet v tag value).2 = viewStyleSetOk tag value := by
  unfold viewStyleSet viewStyleSetOk
  repeat' split
  all_goals simp_all

/-- The success of `viewData.set` depends only on the tag and the value, not
on the view's state. -/
def viewSetOkL (tag : String) (value : Option VValue) : Bool :=
  match value with
  | none => true
  | some value =>
    if tag = "id" then
      match value with
      | .vStr _ => true
      | _ => false
    else if tag = "user-data" then true
    else if tag = "style" ∨ tag = "style-disabled" then
      match value with
      | .vStr _ => true
      | _ => false
    else if (lookupP tag transitionEventsTable).isSome then
      setListenerOk tag (some (vvalueToLValue value)) transitionEventsTable
    else if (lookupP tag animationEventsTable).isSome then
      setListenerOk tag (some (vvalueToLValue value)) animationEventsTable
    else viewStyleSetOk tag value

theorem viewSetL_snd (v : ViewState) (tag : String) (value : Option VValue) :
    (viewSetL v tag value).2 = viewSetOkL tag value := by
  cases value with
  | none => rfl
  | some val =>
    unfold viewSetL viewSetOkL
    dsimp only
    repeat' split
    all_goals simp_all [setTransitionListener_snd, setAnimationListener_snd, viewStyleSet_snd]

theorem viewSet_snd (v : ViewState) (tag : String) (value : Option VValue) :
    (viewSet v tag value).2 = viewSetOkL (toLowerS tag) value :=
  viewSetL_snd v (toLowerS tag) value


/-! ### Claim theorems -/

/-- An animation whose stored timing function is the given string. -/
def animWithTiming (tf : String) : AnimState :=
  { emptyAnim with properties := [("timing-function", APValue.apStr tf)] }

/-- C7 counterexample: the claim states that every string other than the five
named keywords, a `steps(N)` form and a `cubic-bezier(a,b,c,d)` form
validates false; but `validateTimingFunction` accepts the empty string,
which is none of those forms (it has no parenthesis and is not a keyword). -/
theorem validateTimingFunction_empty_accepted :
    validateTimingFunction "" = true ∧
    ¬("" = "ease" ∨ "" = "ease-in" ∨ "" = "ease-out" ∨ "" = "ease-in-out" ∨ "" = "linear") ∧
    "".data.contains '(' = false := by
  refine ⟨rfl, by decide, rfl⟩

/-- C7 (amended): timing-function validation accepts exactly the five named
keywords, the empty string, a `steps(N)` form whose argument parses as an
integer, and a `cubic-bezier(a,b,c,d)` form with four float parameters; in
particular `"steps(4)"` and `"cubic-bezier(0.1,0.7,1,0.1)"` validate true
while `"steps(a)"`, `"cubic-bezier(1,2,3)"` and `"bounce"` validate false,
and serialization substitutes the fallback keyword `"ease"` for every
rejected string while passing every accepted string through unchanged. -/
theorem validateTimingFunction_spec :
    (∀ tf, validateTimingFunction tf = false →
      timingFunctionCSS (animWithTiming tf) = "ease") ∧
    (∀ tf, validateTimingFunction tf = true →
      timingFunctionCSS (animWithTiming tf) = tf) ∧
    validateTimingFunction "ease" = true ∧ validateTimingFunction "ease-in" = true ∧
    validateTimingFunction "ease-out" = true ∧ validateTimingFunction "ease-in-out" = true ∧
    validateTimingFunction "linear" = true ∧ validateTimingFunction "" = true ∧
    validateTimingFunction "steps(4)" = true ∧
    validateTimingFunction "cubic-bezier(0.1,0.7,1,0.1)" = true ∧
    validateTimingFunction "steps(a)" = false ∧
    validateTimingFunction "cubic-bezier(1,2,3)" = false ∧
    validateTimingFunction "bounce" = false := by
  refine ⟨?_, ?_, rfl, rfl, rfl, rfl, rfl, rfl, by decide, by decide, by decide, by decide, rfl⟩
  · intro tf h
    unfold timingFunctionCSS stringPropertyA animWithTiming resolveConstants
    simp [lookupP, h]
  · intro tf h
    unfold timingFunctionCSS stringPropertyA animWithTiming resolveConstants
    simp [lookupP, h]

/-- Witness for C7's amended theorem at concrete inputs. -/
theorem validateTimingFunction_spec_witness :
    timingFunctionCSS (animWithTiming "bounce") = "ease" ∧
    timingFunctionCSS (animWithTiming "steps(4)") = "steps(4)" :=
  ⟨validateTimingFunction_spec.1 "bounce" (by decide),
   validateTimingFunction_spec.2.1 "steps(4)" (by decide)⟩


/-- C8: on each of the three stores — view, animation, drop-down list —
`Set` with a nil value takes the removal path: it returns true and leaves
the store in exactly the state `Remove` produces. -/
theorem set_nil_equals_remove :
    (∀ (v : ViewState) (tag : String), viewSet v tag none = (viewRemove v tag, true)) ∧
    (∀ (a : AnimState) (tag : String), animSet a tag none = (animRemove a tag, true)) ∧
    (∀ (d : DDState) (tag : String), ddlSet d tag none = (ddlRemove d tag, true)) :=
  ⟨fun _ _ => rfl, fun _ _ => rfl, fun _ _ => rfl⟩

/-- C9: `SetAnimated` with a nil animation is exactly `Set` — same result
state and same boolean; in particular it leaves `singleTransition` untouched
and installs no transition override (the `transitions` map only changes when
the mutated tag is the `"transition"` property itself). -/
theorem setAnimated_nil_animation (v : ViewState) (tag : String) (value : Option VValue) :
    setAnimated v tag value none = viewSet v tag value ∧
    (setAnimated v tag value none).1.singleTransition = v.singleTransition ∧
    (toLowerS tag ≠ "transition" →
      (setAnimated v tag value none).1.transitions = v.transitions) :=
  ⟨rfl, viewSetL_singleTransition v (toLowerS tag) value,
   fun h => viewSetL_transitions_ne v (toLowerS tag) value h⟩

/-- Witness for C9 at a concrete input. -/
theorem setAnimated_nil_animation_witness :
    setAnimated emptyView "opacity" (some (VValue.vNum 1)) none =
      viewSet emptyView "opacity" (some (VValue.vNum 1)) ∧
    (setAnimated emptyView "opacity" (some (VValue.vNum 1)) none).1.transitions = [] := by
  have h := setAnimated_nil_animation emptyView "opacity" (some (VValue.vNum 1))
  exact ⟨h.1, by rw [h.2.2 (by decide)]; rfl⟩


theorem animNormalizeTag_property : animNormalizeTag "property" = "property" := rfl

theorem collectProps_cons (p : AnimatedProp) (rest : List AnimatedProp) :
    (collectProps (p :: rest)).1 =
      (match validProp? p with
       | some q => q :: (collectProps rest).1
       | none => (collectProps rest).1) := by
  simp only [collectProps, validProp?]
  by_cases h1 : (normalizeAnimatedProp p).fromVal.isNone
  · simp [h1]
  · by_cases h2 : (normalizeAnimatedProp p).toVal.isNone
    · simp [h1, h2]
    · simp [h1, h2]

theorem collectProps_fst (l : List AnimatedProp) :
    (collectProps l).1 = l.filterMap validProp? := by
  induction l with
  | nil => rfl
  | cons p rest ih =>
    rw [collectProps_cons, List.filterMap_cons, ih]
    cases hv : validProp? p <;> simp [hv]

theorem animSet_property_single (a : AnimState) (p : AnimatedProp) :
    (animSet a "property" (some (.aProp p))).2 = (validProp? p).isSome ∧
    (animSet a "property" (some (.aProp p))).1.properties =
      (match validProp? p with
       | some q => insertP "property" (.apProps [q]) a.properties
       | none => a.properties) := by
  unfold animSet validProp?
  dsimp only
  rw [animNormalizeTag_property]
  simp only [reduceIte]
  by_cases h1 : (normalizeAnimatedProp p).fromVal.isNone
  · simp [h1]
  · by_cases h2 : (normalizeAnimatedProp p).toVal.isNone
    · simp [h1, h2]
    · simp [h1, h2]

theorem animSet_property_list (a : AnimState) (l : List AnimatedProp) :
    (animSet a "property" (some (.aProps l))).2 = !(l.filterMap validProp?).isEmpty ∧
    (animSet a "property" (some (.aProps l))).1.properties =
      (if (l.filterMap validProp?).isEmpty then a.properties
       else insertP "property" (.apProps (l.filterMap validProp?)) a.properties) := by
  unfold animSet
  dsimp only
  rw [animNormalizeTag_property]
  simp only [reduceIte]
  rw [collectProps_fst]
  by_cases he : (l.filterMap validProp?).isEmpty
  · simp [he]
  · simp [he]


/-- The animated property of C5's concrete example. -/
def exampleKeyframeProp : AnimatedProp :=
  { tag := "color", fromVal := none, toVal := none,
    keyFrames := some [(0, "red"), (50, "blue"), (100, "green")] }

/-- C5: under the `"property"` tag an absent `From` is filled by promoting
the percent-0 keyframe entry (which is removed from the keyframe map) and an
absent `To` symmetrically by the percent-100 entry; the concrete example
`{0: red, 50: blue, 100: green}` with no explicit from/to stores
`from=red`, `to=green`, `keyframes={50: blue}`; an entry still lacking
`From` or `To` after promotion is dropped, the animation keeps the
remaining valid entries in order, and `Set` fails with the store unchanged
when none remain. -/
theorem animatedProperty_promotion :
    (animSet emptyAnim "property" (some (.aProp exampleKeyframeProp)) =
      ({ emptyAnim with
           properties := [("property", .apProps
             [{ tag := "color", fromVal := some "red", toVal := some "green",
                keyFrames := some [(50, "blue")] }])] }, true)) ∧
    (∀ (p : AnimatedProp) (w : String) (kfs : List (Nat × String)),
       p.fromVal = none → p.keyFrames = some kfs → lookupP 0 kfs = some w →
       (normalizeAnimatedProp p).fromVal = some w) ∧
    (∀ (p : AnimatedProp) (w : String) (kfs : List (Nat × String)),
       p.toVal = none → p.keyFrames = some kfs → lookupP 100 kfs = some w →
       (normalizeAnimatedProp p).toVal = some w) ∧
    (∀ (a : AnimState) (p : AnimatedProp), validProp? p = none →
       (animSet a "property" (some (.aProp p))).2 = false ∧
       (animSet a "property" (some (.aProp p))).1.properties = a.properties) ∧
    (∀ (a : AnimState) (l : List AnimatedProp),
       (animSet a "property" (some (.aProps l))).2 = !(l.filterMap validProp?).isEmpty ∧
       (animSet a "property" (some (.aProps l))).1.properties =
         (if (l.filterMap validProp?).isEmpty then a.properties
          else insertP "property" (.apProps (l.filterMap validProp?)) a.properties)) := by
  refine ⟨by decide, ?_, ?_, ?_, fun a l => animSet_property_list a l⟩
  · intro p w kfs h1 h2 h3
    unfold normalizeAnimatedProp promoteFrom
    rw [h2]
    simp only [h1, Option.isNone_none, if_true, h3]
    unfold promoteTo
    dsimp only
    repeat' split
    all_goals rfl
  · intro p w kfs h1 h2 h3
    have h100 : lookupP 100 (eraseP 0 kfs) = some w := by
      rw [lookupP_eraseP_ne 100 0 kfs (by decide)]
      exact h3
    unfold normalizeAnimatedProp promoteFrom
    by_cases h0 : p.fromVal.isNone
    · rw [h2]
      simp only [h0, if_true]
      cases hl : lookupP 0 kfs with
      | none =>
        unfold promoteTo
        simp [h1, h2, h3]
      | some w0 =>
        unfold promoteTo
        simp [h1, h100]
    · rw [if_neg (by simp [h0])]
      unfold promoteTo
      simp [h1, h2, h3]
  · intro a p hvp
    have h := animSet_property_single a p
    rw [hvp] at h
    exact ⟨by simpa using h.1, h.2⟩

/-- Witness for C5's quantified parts at concrete inputs. -/
theorem animatedProperty_promotion_witness :
    (normalizeAnimatedProp exampleKeyframeProp).fromVal = some "red" ∧
    (normalizeAnimatedProp exampleKeyframeProp).toVal = some "green" ∧
    (animSet emptyAnim "property"
        (some (.aProp { tag := "x", fromVal := none, toVal := none, keyFrames := none }))).2 = false ∧
    (animSet emptyAnim "property"
        (some (.aProps [{ tag := "x", fromVal := none, toVal := none, keyFrames := none },
                        { tag := "y", fromVal := some "0", toVal := some "1", keyFrames := none }]))).2 = true := by
  refine ⟨?_, ?_, ?_, ?_⟩
  · exact animatedProperty_promotion.2.1 exampleKeyframeProp "red"
      [(0, "red"), (50, "blue"), (100, "green")] rfl rfl (by decide)
  · exact animatedProperty_promotion.2.2.1 exampleKeyframeProp "green"
      [(0, "red"), (50, "blue"), (100, "green")] rfl rfl (by decide)
  · exact (animatedProperty_promotion.2.2.2.1 emptyAnim _ (by decide)).1
  · rw [(animatedProperty_promotion.2.2.2.2 emptyAnim _).1]
    decide


theorem kf_name_ne_empty (c : Nat) : ("kf" ++ natPad6 c) ≠ "" := by
  intro h
  have hl := congrArg String.length h
  rw [String.length_append] at hl
  have h2 : ("kf" : String).length = 2 := rfl
  have h0 : ("" : String).length = 0 := rfl
  rw [h2, h0] at hl
  omega

theorem animationCSS_cached (a : AnimState) (s : SessionState)
    (h : a.keyFramesName ≠ "") :
    animationCSS a s = (animationBodyCSS a a.keyFramesName, a, s) := by
  unfold animationCSS
  rw [if_neg h]

/-- C6: rendering an Animation with a valid animated-property list as a CSS
keyframe animation twice yields the identical keyframe name both times: the
name is assigned on the first rendering, cached in the animation, and the
second rendering changes neither the animation nor the session and returns
the same serialization. -/
theorem animationCSS_name_idempotent (a : AnimState) (s : SessionState)
    (l : List AnimatedProp)
    (h : lookupP "property" a.properties = some (.apProps l)) :
    (animationCSS a s).2.1.keyFramesName ≠ "" ∧
    (animationCSS (animationCSS a s).2.1 (animationCSS a s).2.2).2.1.keyFramesName =
      (animationCSS a s).2.1.keyFramesName ∧
    (animationCSS (animationCSS a s).2.1 (animationCSS a s).2.2).2.1 = (animationCSS a s).2.1 ∧
    (animationCSS (animationCSS a s).2.1 (animationCSS a s).2.2).2.2 = (animationCSS a s).2.2 ∧
    (animationCSS (animationCSS a s).2.1 (animationCSS a s).2.2).1 = (animationCSS a s).1 := by
  have hne : (animationCSS a s).2.1.keyFramesName ≠ "" := by
    by_cases h0 : a.keyFramesName = ""
    · have hfirst : animationCSS a s =
          (animationBodyCSS { a with keyFramesName := "kf" ++ natPad6 (s.animationCounter + 1) }
             ("kf" ++ natPad6 (s.animationCounter + 1)),
           { a with keyFramesName := "kf" ++ natPad6 (s.animationCounter + 1) },
           { animationCounter := s.animationCounter + 1,
             animationCSSText := s.animationCSSText ++ keyframesBody l }) := by
        unfold animationCSS
        rw [if_pos h0, h]
        rfl
      rw [hfirst]
      exact kf_name_ne_empty _
    · have hfirst : animationCSS a s = (animationBodyCSS a a.keyFramesName, a, s) := by
        unfold animationCSS
        rw [if_neg h0]
      rw [hfirst]
      exact h0
  have hsecond := animationCSS_cached (animationCSS a s).2.1 (animationCSS a s).2.2 hne
  refine ⟨hne, by rw [hsecond], by rw [hsecond], by rw [hsecond], ?_⟩
  rw [hsecond]
  by_cases h0 : a.keyFramesName = ""
  · have hfirst : animationCSS a s =
        (animationBodyCSS { a with keyFramesName := "kf" ++ natPad6 (s.animationCounter + 1) }
           ("kf" ++ natPad6 (s.animationCounter + 1)),
         { a with keyFramesName := "kf" ++ natPad6 (s.animationCounter + 1) },
         { animationCounter := s.animationCounter + 1,
           animationCSSText := s.animationCSSText ++ keyframesBody l }) := by
      unfold animationCSS
      rw [if_pos h0, h]
      rfl
    rw [hfirst]
  · have hfirst : animationCSS a s = (animationBodyCSS a a.keyFramesName, a, s) := by
      unfold animationCSS
      rw [if_neg h0]
    rw [hfirst]

/-- The animation of C6's witness. -/
def exampleAnimation : AnimState :=
  { emptyAnim with properties :=
      [("property", .apProps [{ tag := "opacity", fromVal := some "0", toVal := some "1",
                                keyFrames := none }])] }

/-- Witness for C6 at a concrete animation and session. -/
theorem animationCSS_name_idempotent_witness :
    (animationCSS exampleAnimation { animationCounter := 0, animationCSSText := "" }).2.1.keyFramesName ≠ "" ∧
    (animationCSS
        (animationCSS exampleAnimation { animationCounter := 0, animationCSSText := "" }).2.1
        (animationCSS exampleAnimation { animationCounter := 0, animationCSSText := "" }).2.2).2.1.keyFramesName =
      (animationCSS exampleAnimation { animationCounter := 0, animationCSSText := "" }).2.1.keyFramesName := by
  have h := animationCSS_name_idempotent exampleAnimation
    { animationCounter := 0, animationCSSText := "" }
    [{ tag := "opacity", fromVal := some "0", toVal := some "1", keyFrames := none }]
    (by decide)
  exact ⟨h.1, h.2.1⟩


/-- A heterogeneous element that is nil or of unsupported type. -/
def badHElem : HElem → Bool
  | .hNil => true
  | .hOther _ => true
  | _ => false

theorem convOpt_of_contains_none (wrap : Nat → CanonListener) (l : List (Option Nat))
    (h : l.contains none = true) : convOpt wrap l = none := by
  induction l with
  | nil => simp at h
  | cons e rest ih =>
    cases e with
    | none => rfl
    | some id =>
      have h2 : rest.contains none = true := by simpa using h
      unfold convOpt
      rw [ih h2]

theorem convAny_of_bad (l : List HElem) (h : l.any badHElem = true) :
    convAny l = none := by
  induction l with
  | nil => simp at h
  | cons e rest ih =>
    cases e with
    | hNil => rfl
    | hOther n => rfl
    | hCanonical id =>
      simp [badHElem] at h
      unfold convAny
      rw [ih (by simpa [badHElem] using h)]
    | hPayload id =>
      simp [badHElem] at h
      unfold convAny
      rw [ih (by simpa [badHElem] using h)]
    | hView id =>
      simp [badHElem] at h
      unfold convAny
      rw [ih (by simpa [badHElem] using h)]
    | hZero id =>
      simp [badHElem] at h
      unfold convAny
      rw [ih (by simpa [badHElem] using h)]

theorem valueToAnimationListeners_invalid (lv : LValue) (h : hasInvalidElem lv = true) :
    valueToAnimationListeners (some lv) = (none, false) := by
  cases lv with
  | listCanonical l =>
    have hne : l.isEmpty = false := by
      cases l with
      | nil => simp [hasInvalidElem] at h
      | cons e rest => rfl
    unfold valueToAnimationListeners
    dsimp only
    rw [hne]
    simp only [Bool.false_eq_true, if_false]
    rw [convOpt_of_contains_none _ l (by simpa [hasInvalidElem] using h)]
  | listPayload l =>
    have hne : l.isEmpty = false := by
      cases l with
      | nil => simp [hasInvalidElem] at h
      | cons e rest => rfl
    unfold valueToAnimationListeners
    dsimp only
    rw [hne]
    simp only [Bool.false_eq_true, if_false]
    rw [convOpt_of_contains_none _ l (by simpa [hasInvalidElem] using h)]
  | listView l =>
    have hne : l.isEmpty = false := by
      cases l with
      | nil => simp [hasInvalidElem] at h
      | cons e rest => rfl
    unfold valueToAnimationListeners
    dsimp only
    rw [hne]
    simp only [Bool.false_eq_true, if_false]
    rw [convOpt_of_contains_none _ l (by simpa [hasInvalidElem] using h)]
  | listZero l =>
    have hne : l.isEmpty = false := by
      cases l with
      | nil => simp [hasInvalidElem] at h
      | cons e rest => rfl
    unfold valueToAnimationListeners
    dsimp only
    rw [hne]
    simp only [Bool.false_eq_true, if_false]
    rw [convOpt_of_contains_none _ l (by simpa [hasInvalidElem] using h)]
  | listAny l =>
    have hb : l.any badHElem = true := by
      simp only [hasInvalidElem] at h
      simpa [badHElem] using h
    have hne : l.isEmpty = false := by
      cases l with
      | nil => simp at hb
      | cons e rest => rfl
    unfold valueToAnimationListeners
    dsimp only
    rw [hne]
    simp only [Bool.false_eq_true, if_false]
    rw [convAny_of_bad l hb]
  | fCanonical id => simp [hasInvalidElem] at h
  | fPayload id => simp [hasInvalidElem] at h
  | fView id => simp [hasInvalidElem] at h
  | fZero id => simp [hasInvalidElem] at h
  | lOther n => simp [hasInvalidElem] at h

/-- C4: a listener collection containing a nil element (homogeneous or
heterogeneous) or an element of unsupported type (heterogeneous) fails
normalization as a whole — not-ok with no partial list — and the
transition/animation event-tag setters reject it, returning false and
leaving the stored property (hence the stored listener list of every tag)
unchanged. -/
theorem invalid_listener_collection_rejected (lv : LValue) (v : ViewState) (tag : String)
    (h : hasInvalidElem lv = true) :
    valueToAnimationListeners (some lv) = (none, false) ∧
    (setTransitionListener v tag (some lv)).2 = false ∧
    (setTransitionListener v tag (some lv)).1.props = v.props ∧
    (setAnimationListener v tag (some lv)).2 = false ∧
    (setAnimationListener v tag (some lv)).1.props = v.props := by
  have hv := valueToAnimationListeners_invalid lv h
  refine ⟨hv, ?_, ?_, ?_, ?_⟩
  · unfold setTransitionListener
    rw [hv]
  · unfold setTransitionListener
    rw [hv]
    rfl
  · unfold setAnimationListener
    rw [hv]
  · unfold setAnimationListener
    rw [hv]
    rfl

/-- Witness for C4 at a concrete invalid collection. -/
theorem invalid_listener_collection_rejected_witness :
    valueToAnimationListeners (some (.listCanonical [none])) = (none, false) ∧
    (setTransitionListener emptyView "transition-end-event" (some (.listCanonical [none]))).2 = false ∧
    (setTransitionListener emptyView "transition-end-event" (some (.listCanonical [none]))).1.props = emptyView.props := by
  have h := invalid_listener_collection_rejected (.listCanonical [none]) emptyView
    "transition-end-event" (by decide)
  exact ⟨h.1, h.2.1, h.2.2.1⟩


/-- C3: for a tag in the Overriding state (`singleTransition` holds an entry
for it), a terminal transition event (end or cancel) carrying that tag
removes the entry and restores the saved animation into `transitions` — or
deletes `transitions[tag]` when the saved value was the nil sentinel — then
recomputes the aggregate CSS transition declaration and forwards to the
event listeners; a run or start event leaves the transition state
unchanged. -/
theorem terminal_transition_event_restores (v : ViewState) (property : String)
    (saved : Option Nat)
    (h : lookupP property v.singleTransition = some saved) :
    (∀ tag, tag = "transition-end-event" ∨ tag = "transition-cancel-event" →
      (handleTransitionEvents v tag (some property)).singleTransition =
          eraseP property v.singleTransition ∧
      (handleTransitionEvents v tag (some property)).transitions =
          (match saved with
           | some a => insertP property a v.transitions
           | none => eraseP property v.transitions) ∧
      (handleTransitionEvents v tag (some property)).props = v.props ∧
      (handleTransitionEvents v tag (some property)).out =
        v.out ++
          Instr.updateCSS v.htmlID "transition"
            (transitionsCSSStr (match saved with
              | some a => insertP property a v.transitions
              | none => eraseP property v.transitions)) ::
          (getAnimationListenersV v tag).map (fun _ => Instr.dispatch tag property)) ∧
    (∀ tag, tag = "transition-run-event" ∨ tag = "transition-start-event" →
      (handleTransitionEvents v tag (some property)).singleTransition = v.singleTransition ∧
      (handleTransitionEvents v tag (some property)).transitions = v.transitions ∧
      (handleTransitionEvents v tag (some property)).props = v.props) := by
  constructor
  · intro tag htag
    unfold handleTransitionEvents
    dsimp only
    rw [if_pos htag]
    simp only [h]
    cases saved with
    | some a =>
      refine ⟨rfl, rfl, rfl, ?_⟩
      unfold updateTransitionCSS emitV getAnimationListenersV
      dsimp only
      simp
    | none =>
      refine ⟨rfl, rfl, rfl, ?_⟩
      unfold updateTransitionCSS emitV getAnimationListenersV
      dsimp only
      simp
  · intro tag htag
    rcases htag with rfl | rfl
    · unfold handleTransitionEvents
      dsimp only
      rw [if_neg (by decide)]
      exact ⟨rfl, rfl, rfl⟩
    · unfold handleTransitionEvents
      dsimp only
      rw [if_neg (by decide)]
      exact ⟨rfl, rfl, rfl⟩

/-- The view of C3's witness: `"width"` is Overriding with a real saved
animation, `"opacity"` is Overriding with the nil sentinel. -/
def overridingView : ViewState :=
  { emptyView with transitions := [("width", 9)],
                   singleTransition := [("width", some 3), ("opacity", none)] }

/-- Witness for C3 at a concrete view and events. -/
theorem terminal_transition_event_restores_witness :
    (handleTransitionEvents overridingView "transition-end-event" (some "width")).transitions =
        [("width", 3)] ∧
    (handleTransitionEvents overridingView "transition-end-event" (some "width")).singleTransition =
        [("opacity", none)] ∧
    (handleTransitionEvents overridingView "transition-run-event" (some "width")).transitions =
        [("width", 9)] := by
  have h := terminal_transition_event_restores overridingView "width" (some 3) (by decide)
  have he := h.1 "transition-end-event" (Or.inl rfl)
  have hr := h.2 "transition-run-event" (Or.inl rfl)
  refine ⟨?_, ?_, ?_⟩
  · rw [he.2.1]
    decide
  · rw [he.1]
    decide
  · rw [hr.2.1]
    decide


/-- C1 counterexample: on a view with no transitions, an animated set of
`"opacity"` with an uncoercible value and animation 7 fails — yet afterwards
`transitions["opacity"]` holds the override animation 7 instead of being
returned to the empty state that preceded the call. -/
theorem setAnimated_failure_keeps_override :
    (setAnimated emptyView "opacity" (some (.vStr "abc")) (some 7)).2 = false ∧
    emptyView.transitions = [] ∧
    emptyView.singleTransition = [] ∧
    (setAnimated emptyView "opacity" (some (.vStr "abc")) (some 7)).1.transitions =
      [("opacity", 7)] := by
  decide

/-- C1 (amended): when the inner property mutation of `SetAnimated` with a
non-nil animation fails, the call returns false, the `singleTransition`
entry for the tag is discarded (any entry the tag had before the call is
deleted as well), and the property store is left unchanged — but
`transitions[tag]` retains the override animation instead of being restored
to the state that preceded the call. -/
theorem setAnimated_failure_discards_save (v : ViewState) (tag : String)
    (value : Option VValue) (anim : Nat)
    (h : (viewSet v tag value).2 = false) :
    (setAnimated v tag value (some anim)).2 = false ∧
    (setAnimated v tag value (some anim)).1.singleTransition =
      eraseP tag v.singleTransition ∧
    (setAnimated v tag value (some anim)).1.transitions =
      insertP tag anim v.transitions ∧
    (setAnimated v tag value (some anim)).1.props = v.props := by
  have hmidL : (viewSetL (setAnimatedPrepared v tag anim) (toLowerS tag) value).2 = false := by
    rw [viewSetL_snd]
    rw [viewSet_snd] at h
    exact h
  have hout : outOnly (setAnimatedPrepared v tag anim)
      (viewSetL (setAnimatedPrepared v tag anim) (toLowerS tag) value).1 :=
    (viewSetL_cases _ _ _).resolve_left (by rw [hmidL]; exact Bool.false_ne_true)
  have hst : (viewSetL (setAnimatedPrepared v tag anim) (toLowerS tag) value).1.singleTransition =
      insertP tag (lookupP tag v.transitions) v.singleTransition :=
    viewSetL_singleTransition _ _ _
  unfold setAnimated
  dsimp only
  rw [show (viewSet (setAnimatedPrepared v tag anim) tag value).2 = false from hmidL]
  simp only [Bool.false_eq_true, if_false]
  refine ⟨trivial, ?_, ?_, ?_⟩
  · show eraseP tag (viewSet (setAnimatedPrepared v tag anim) tag value).1.singleTransition =
      eraseP tag v.singleTransition
    rw [show (viewSet (setAnimatedPrepared v tag anim) tag value).1.singleTransition =
        insertP tag (lookupP tag v.transitions) v.singleTransition from hst]
    exact eraseP_insertP_self tag _ v.singleTransition
  · show (viewSet (setAnimatedPrepared v tag anim) tag value).1.transitions =
      insertP tag anim v.transitions
    exact hout.2.2.1.trans rfl
  · show (viewSet (setAnimatedPrepared v tag anim) tag value).1.props = v.props
    exact hout.2.1.trans rfl

/-- Witness for C1's amended theorem at a concrete failing mutation. -/
theorem setAnimated_failure_discards_save_witness :
    (viewSet emptyView "opacity" (some (VValue.vStr "abc"))).2 = false ∧
    (setAnimated emptyView "opacity" (some (VValue.vStr "abc")) (some 7)).2 = false ∧
    (setAnimated emptyView "opacity" (some (VValue.vStr "abc")) (some 7)).1.singleTransition = [] ∧
    (setAnimated emptyView "opacity" (some (VValue.vStr "abc")) (some 7)).1.props = [] := by
  have h := setAnimated_failure_discards_save emptyView "opacity"
    (some (VValue.vStr "abc")) 7 (by decide)
  refine ⟨by decide, h.1, ?_, ?_⟩
  · rw [h.2.1]
    rfl
  · rw [h.2.2.2]
    rfl


/-- A materialized view with a border configured. -/
def borderView : ViewState :=
  { emptyView with props := [("border", .pRaw (.vBorder 1))] }

/-- C2 counterexample: with a border configured, mutating
`"border-left-width"` issues exactly one update instruction (the width CSS
property alone), not the width/color/style triple of three. -/
theorem borderWidthTag_single_instruction :
    (getBorderM borderView).isSome = true ∧
    (viewPropertyChanged borderView "border-left-width").length = 1 := by
  decide

/-- C2 (amended): mutating any one of the four border-edge-width tags
recomputes exactly the border-width CSS property: one update instruction
when a border is configured, zero when no border is configured at all
(the width/color/style triple is recomputed together only for the
whole-edge border tags and the `"border"` tag itself). -/
theorem borderWidthTag_propagation (v : ViewState) (tag : String)
    (h : tag = "border-left-width" ∨ tag = "border-right-width" ∨
         tag = "border-top-width" ∨ tag = "border-bottom-width") :
    (∀ b, getBorderM v = some b →
       viewPropertyChanged v tag = [.updateCSS v.htmlID "border-width" (cssWidthValue b)]) ∧
    (getBorderM v = none → viewPropertyChanged v tag = []) := by
  rcases h with rfl | rfl | rfl | rfl <;>
    refine ⟨fun b hb => ?_, fun hb => ?_⟩ <;>
    · unfold viewPropertyChanged
      rw [if_neg (by decide), if_neg (by decide), if_neg (by decide), if_neg (by decide),
          if_pos (by decide), hb]

/-- Witness for C2's amended theorem at concrete views. -/
theorem borderWidthTag_propagation_witness :
    viewPropertyChanged borderView "border-left-width" =
      [.updateCSS borderView.htmlID "border-width" (cssWidthValue 1)] ∧
    viewPropertyChanged emptyView "border-top-width" = [] := by
  have h1 := (borderWidthTag_propagation borderView "border-left-width" (Or.inl rfl)).1 1 (by decide)
  have h2 := (borderWidthTag_propagation emptyView "border-top-width"
    (Or.inr (Or.inr (Or.inl rfl)))).2 (by decide)
  exact ⟨h1, h2⟩

/-- The view of C10's witness, resolvable by the identifier `"sub1"`. -/
def subView : ViewState := { emptyView with viewID := "sub1" }

/-- C10: `AddTransition` returns false without touching any view state when
the tag is empty or when the target view cannot be resolved; only with a
non-empty tag and a resolved view does it delegate to setting the
`"transition"` property with the target's transitions extended by the new
tag. -/
theorem addTransition_validation :
    (∀ (view : Option ViewState) (subviewID : String) (anim : Nat),
       addTransition view subviewID "" anim = (view, false)) ∧
    (∀ (view : Option ViewState) (subviewID tag : String) (anim : Nat),
       resolveTargetView view subviewID = none →
       addTransition view subviewID tag anim = (view, false)) ∧
    (∀ (view : Option ViewState) (subviewID tag : String) (anim : Nat) (t : ViewState),
       tag ≠ "" → resolveTargetView view subviewID = some t →
       addTransition view subviewID tag anim =
         (some (viewSet t "transition" (some (.vTransitions (insertP tag anim t.transitions)))).1,
          (viewSet t "transition" (some (.vTransitions (insertP tag anim t.transitions)))).2)) := by
  refine ⟨?_, ?_, ?_⟩
  · intro view subviewID anim
    unfold addTransition
    rw [if_pos rfl]
  · intro view subviewID tag anim hres
    unfold addTransition
    by_cases htag : tag = ""
    · rw [if_pos htag]
    · rw [if_neg htag, hres]
  · intro view subviewID tag anim t htag hres
    unfold addTransition
    rw [if_neg htag, hres]
    rfl

/-- Witness for C10 at concrete views and identifiers. -/
theorem addTransition_validation_witness :
    addTransition (some subView) "" "" 5 = (some subView, false) ∧
    addTransition (some subView) "zzz" "width" 5 = (some subView, false) ∧
    addTransition (some subView) "sub1" "width" 5 =
      (some (viewSet subView "transition"
               (some (.vTransitions (insertP "width" 5 subView.transitions)))).1,
       (viewSet subView "transition"
          (some (.vTransitions (insertP "width" 5 subView.transitions)))).2) :=
  ⟨addTransition_validation.1 (some subView) "" 5,
   addTransition_validation.2.1 (some subView) "zzz" "width" 5 (by decide),
   addTransition_validation.2.2 (some subView) "sub1" "width" 5 subView
     (by decide) (by decide)⟩

end Rui
